/-
Verification development for the svelte-webflow-cms repository.

The development shallowly embeds the change-tracking state container of
`CmsTable.svelte` (the variant with pending file uploads) and the
server actions of `cms-actions.ts` (save-all, upload-file) together with
`loadReferenceData` from `load-cms-items.ts`, and proves the testable
properties of the specification against these embeddings.

Modelling conventions:
* JavaScript JSON-serialisable values are modelled by the inductive type
  `JVal`; JS objects are ordered association lists (JS objects preserve
  key-insertion order and never hold duplicate keys).
* `JSON.parse(JSON.stringify(x))` (the repository's `deepClone`) is the
  identity on JSON-representable values, which is what every cloned value
  in the container is; the embedding therefore treats cloning as `id`.
* `JSON.stringify(a) !== JSON.stringify(b)` on two JS values is modelled
  as structural disequality of the corresponding `JVal`s: stringification
  is injective on values whose objects have unique keys.
* JS numbers are modelled as `Int`, standing for the integer-valued
  IEEE-754 doubles.  Comparisons and `Math.max` on such values are exact
  at every magnitude, so they map to integer `max`; the one rounding
  operation the claims meet — the `maxSort + 1` of `handleAddItem` — is
  modelled by `jsAddOne`, which reproduces the double addition's
  saturation at `2^53`.  `NaN`, `Infinity` and fractional doubles are
  outside the model.
-/
import Mathlib

set_option linter.all false

namespace SvelteWebflowCms

/-- JSON-like JavaScript values.  Objects are ordered association lists. -/
inductive JVal where
  | str : String → JVal
  | num : Int → JVal
  | bool : Bool → JVal
  | null : JVal
  | arr : List JVal → JVal
  | obj : List (String × JVal) → JVal

mutual

/-- Structural equality test on `JVal` (hand-written: automatic deriving
does not support the nested `List` occurrences). -/
def JVal.beq : JVal → JVal → Bool
  | .str a, .str b => a == b
  | .num a, .num b => a == b
  | .bool a, .bool b => a == b
  | .null, .null => true
  | .arr a, .arr b => JVal.beqArr a b
  | .obj a, .obj b => JVal.beqObj a b
  | _, _ => false

/-- Pointwise equality test on JSON arrays. -/
def JVal.beqArr : List JVal → List JVal → Bool
  | [], [] => true
  | a :: as, b :: bs => JVal.beq a b && JVal.beqArr as bs
  | _, _ => false

/-- Pointwise equality test on JSON objects (ordered key/value lists). -/
def JVal.beqObj : List (String × JVal) → List (String × JVal) → Bool
  | [], [] => true
  | (k1, v1) :: as, (k2, v2) :: bs =>
      k1 == k2 && JVal.beq v1 v2 && JVal.beqObj as bs
  | _, _ => false

end

mutual

def JVal.beq_iff : ∀ (a b : JVal), JVal.beq a b = true ↔ a = b
  | .str a, .str b => by simp [JVal.beq]
  | .str a, .num b => by simp [JVal.beq]
  | .str a, .bool b => by simp [JVal.beq]
  | .str a, .null => by simp [JVal.beq]
  | .str a, .arr b => by simp [JVal.beq]
  | .str a, .obj b => by simp [JVal.beq]
  | .num a, .str b => by simp [JVal.beq]
  | .num a, .num b => by simp [JVal.beq]
  | .num a, .bool b => by simp [JVal.beq]
  | .num a, .null => by simp [JVal.beq]
  | .num a, .arr b => by simp [JVal.beq]
  | .num a, .obj b => by simp [JVal.beq]
  | .bool a, .str b => by simp [JVal.beq]
  | .bool a, .num b => by simp [JVal.beq]
  | .bool a, .bool b => by simp [JVal.beq]
  | .bool a, .null => by simp [JVal.beq]
  | .bool a, .arr b => by simp [JVal.beq]
  | .bool a, .obj b => by simp [JVal.beq]
  | .null, .str b => by simp [JVal.beq]
  | .null, .num b => by simp [JVal.beq]
  | .null, .bool b => by simp [JVal.beq]
  | .null, .null => by simp [JVal.beq]
  | .null, .arr b => by simp [JVal.beq]
  | .null, .obj b => by simp [JVal.beq]
  | .arr a, .str b => by simp [JVal.beq]
  | .arr a, .num b => by simp [JVal.beq]
  | .arr a, .bool b => by simp [JVal.beq]
  | .arr a, .null => by simp [JVal.beq]
  | .arr a, .arr b => by simp [JVal.beq, JVal.beqArr_iff a b]
  | .arr a, .obj b => by simp [JVal.beq]
  | .obj a, .str b => by simp [JVal.beq]
  | .obj a, .num b => by simp [JVal.beq]
  | .obj a, .bool b => by simp [JVal.beq]
  | .obj a, .null => by simp [JVal.beq]
  | .obj a, .arr b => by simp [JVal.beq]
  | .obj a, .obj b => by simp [JVal.beq, JVal.beqObj_iff a b]

def JVal.beqArr_iff :
    ∀ (as bs : List JVal), JVal.beqArr as bs = true ↔ as = bs
  | [], [] => by simp [JVal.beqArr]
  | [], _ :: _ => by simp [JVal.beqArr]
  | _ :: _, [] => by simp [JVal.beqArr]
  | a :: as, b :: bs => by
      simp [JVal.beqArr, JVal.beq_iff a b, JVal.beqArr_iff as bs]

def JVal.beqObj_iff :
    ∀ (as bs : List (String × JVal)), JVal.beqObj as bs = true ↔ as = bs
  | [], [] => by simp [JVal.beqObj]
  | [], _ :: _ => by simp [JVal.beqObj]
  | _ :: _, [] => by simp [JVal.beqObj]
  | (k1, v1) :: as, (k2, v2) :: bs => by
      simp [JVal.beqObj, JVal.beq_iff v1 v2, JVal.beqObj_iff as bs, and_assoc]

end

instance : DecidableEq JVal := fun a b =>
  decidable_of_iff (JVal.beq a b = true) (JVal.beq_iff a b)

/-- Field data of a CMS item: a JS object mapping field slugs to values. -/
abbrev FieldData := List (String × JVal)

/-- First-match association-list lookup, the model of `obj[key]`
(`none` models JS `undefined`). -/
def lookupAssoc {α : Type} (l : List (String × α)) (k : String) : Option α :=
  (l.find? (fun kv => kv.1 == k)).map (fun kv => kv.2)

/-- Model of `obj[key] = v` on a JS object: overwrite the existing key in
place, or append the key at the end. -/
def setField (fd : FieldData) (k : String) (v : JVal) : FieldData :=
  if fd.any (fun kv => kv.1 == k) then
    fd.map (fun kv => if kv.1 == k then (k, v) else kv)
  else
    fd ++ [(k, v)]

/-- A collection item as held in the table state (`id`, `fieldData`,
`isDraft`, `isArchived`). -/
structure Item where
  id : String
  fieldData : FieldData
  isDraft : Bool
  isArchived : Bool
  deriving DecidableEq

/-- A pending-delete tombstone `{ id, wasLive }`. -/
structure DeletePayload where
  id : String
  wasLive : Bool
  deriving DecidableEq

/-- A pending file upload (the binary blob itself is irrelevant to the
claims; its metadata fields are kept). -/
structure PendingFileUpload where
  itemId : String
  fieldSlug : String
  blobUrl : String
  originalFilename : String
  deriving DecidableEq

/-- The mutable state of the table container (`CmsTable.svelte`). -/
structure TableState where
  items : List Item
  originalItems : List Item
  pendingCreates : List Item
  pendingDeletes : List DeletePayload
  pendingFileUploads : List PendingFileUpload
  tempFiles : List (String × String)

/-- `normalizeFieldData`: drop every entry whose value is the empty
string (`if (value !== "") normalized[key] = value`). -/
def normalizeFieldData (fd : FieldData) : FieldData :=
  fd.filter (fun kv => kv.2 != JVal.str "")

/-- The `items.map(i => i.id).join(",")` order string of `hasChanges`. -/
def orderString (l : List Item) : String :=
  String.intercalate "," (l.map Item.id)

/-- The per-item comparison inside `hasChanges`'s `items.some(...)`:
look up the baseline by id; a missing baseline, a difference of
normalized field data, or a different draft flag counts as a change. -/
def itemDiffers (originalItems : List Item) (it : Item) : Bool :=
  match originalItems.find? (fun o => o.id == it.id) with
  | none => true
  | some o =>
      (normalizeFieldData it.fieldData != normalizeFieldData o.fieldData)
        || (it.isDraft != o.isDraft)

/-- `hasChanges()`: pending creates/deletes, a changed id order, or any
item differing from its baseline. -/
def hasChanges (st : TableState) : Bool :=
  (st.pendingCreates.length != 0) || (st.pendingDeletes.length != 0)
    || (orderString st.items != orderString st.originalItems)
    || st.items.any (itemDiffers st.originalItems)

/-- `handleSaveComplete()`: re-baseline `originalItems` to a clone of
`items` and clear the pending queues (cloning is the identity on the
JSON-valued model). -/
def handleSaveComplete (st : TableState) : TableState :=
  { st with
    originalItems := st.items
    pendingCreates := []
    pendingDeletes := []
    tempFiles := []
    pendingFileUploads := [] }

/-- `handleCancel()`: restore `items` from a clone of `originalItems`
and clear all pending state (including the async cleanup of temp files
and pending uploads). -/
def handleCancel (st : TableState) : TableState :=
  { st with
    items := st.originalItems
    pendingCreates := []
    pendingDeletes := []
    tempFiles := []
    pendingFileUploads := [] }

/-! ## Table configuration (types.ts) -/

/-- Field validations (`FieldSchema.validations`): length and range
bounds, plus `collectionId` for reference fields. -/
structure Validations where
  maxLength : Option Int
  minLength : Option Int
  minimum : Option Int
  maximum : Option Int
  collectionId : Option String
  deriving DecidableEq

/-- The empty validations record (all fields absent). -/
def Validations.none : Validations := ⟨Option.none, Option.none, Option.none, Option.none, Option.none⟩

/-- A field schema.  The Webflow `FieldType` is kept as its string name
(e.g. `"Number"`, `"Switch"`, `"Reference"`). -/
structure FieldSchema where
  name : String
  slug : String
  type : String
  validations : Option Validations
  defaultValue : Option JVal
  deriving DecidableEq

/-- A configured field.  The optional TS booleans `editable`/`required`
are modelled as `Bool` (absent ≡ `false`, matching JS truthiness). -/
structure Field where
  visible : Bool
  editable : Bool
  required : Bool
  schema : FieldSchema
  deriving DecidableEq

/-- The table configuration (the parts the claims depend on). -/
structure TableConfig where
  siteId : String
  collectionId : String
  createDeleteEnabled : Bool
  draftEnabled : Bool
  sortField : Option Field
  fields : List Field

/-! ## Validation (`validateItems`) -/

/-- A validation error `{itemId, fieldName, message}`. -/
structure ValidationError where
  itemId : String
  fieldName : String
  message : String
  deriving DecidableEq

/-- The emptiness test of the required check:
`value === undefined || value === null || value === "" ||
(Array.isArray(value) && value.length === 0)`. -/
def isEmptyValue : Option JVal → Bool
  | Option.none => true
  | some JVal.null => true
  | some (JVal.str s) => s == ""
  | some (JVal.arr a) => a.isEmpty
  | some _ => false

/-- The guard `value === undefined || value === null || value === ""`
that skips the length/range checks. -/
def isNullishOrEmptyString : Option JVal → Bool
  | Option.none => true
  | some JVal.null => true
  | some (JVal.str s) => s == ""
  | some _ => false

/-- The length/range checks of one field (reached only when the value is
present and non-empty-string).  `maxLength`/`minLength` are guarded by JS
truthiness (`0` is falsy); `minimum`/`maximum` by `!== undefined`.
String lengths are code-unit counts; the embedding uses `String.length`. -/
def rangeErrors (itemId fieldName : String) (v : Validations)
    (value : Option JVal) : List ValidationError :=
  (match v.maxLength, value with
    | some m, some (JVal.str s) =>
        if m != 0 && (s.length : Int) > m then
          [⟨itemId, fieldName,
            fieldName ++ " exceeds max length of " ++ toString m⟩]
        else []
    | _, _ => []) ++
  (match v.minLength, value with
    | some m, some (JVal.str s) =>
        if m != 0 && (s.length : Int) < m then
          [⟨itemId, fieldName,
            fieldName ++ " must be at least " ++ toString m ++ " characters"⟩]
        else []
    | _, _ => []) ++
  (match value with
    | some (JVal.num n) =>
        (match v.minimum with
          | some lo =>
              if n < lo then
                [⟨itemId, fieldName,
                  fieldName ++ " must be at least " ++ toString lo⟩]
              else []
          | Option.none => []) ++
        (match v.maximum with
          | some hi =>
              if n > hi then
                [⟨itemId, fieldName,
                  fieldName ++ " must be at most " ++ toString hi⟩]
              else []
          | Option.none => [])
    | _ => [])

/-- The body of the inner `for (const field of config.fields)` loop of
`validateItems`, for one item and one field.  The `continue`s of the
source become early `[]`/singleton results. -/
def fieldErrors (it : Item) (f : Field) : List ValidationError :=
  if !f.visible || !f.editable then []
  else
    let value := lookupAssoc it.fieldData f.schema.slug
    let fieldName := f.schema.name
    if f.required && isEmptyValue value then
      [⟨it.id, fieldName, fieldName ++ " is required"⟩]
    else if isNullishOrEmptyString value then []
    else
      match f.schema.validations with
      | Option.none => []
      | some v => rangeErrors it.id fieldName v value

/-- The errors produced for a single item: the inner field loop. -/
def validateItem (cfg : TableConfig) (it : Item) : List ValidationError :=
  cfg.fields.flatMap (fieldErrors it)

/-- `validateItems()`: scan `[...items, ...pendingCreates]`. -/
def validateItems (cfg : TableConfig) (st : TableState) : List ValidationError :=
  (st.items ++ st.pendingCreates).flatMap (validateItem cfg)

/-! ## Payload construction (`getChangedItems` / `getPayload`) -/

/-- An entry of `getPayload().updates`. -/
structure UpdateEntry where
  item : Item
  wasLive : Bool
  deriving DecidableEq

/-- The save payload `{updates, creates, deletes}`. -/
structure SavePayload where
  updates : List UpdateEntry
  creates : List Item
  deletes : List DeletePayload

/-- The filter predicate of `getChangedItems`: keep only items that
*have* a baseline and differ from it. -/
def changedWithBaseline (originalItems : List Item) (it : Item) : Bool :=
  match originalItems.find? (fun o => o.id == it.id) with
  | Option.none => false
  | some o =>
      (normalizeFieldData it.fieldData != normalizeFieldData o.fieldData)
        || (it.isDraft != o.isDraft)

/-- `getChangedItems()`: filter the changed items, then pair each with
`wasLive = !original.isDraft && !original.isArchived`. -/
def getChangedItems (st : TableState) : List UpdateEntry :=
  (st.items.filter (changedWithBaseline st.originalItems)).map fun it =>
    match st.originalItems.find? (fun o => o.id == it.id) with
    | some o => ⟨it, !o.isDraft && !o.isArchived⟩
    | Option.none => ⟨it, false⟩

/-- `getPayload()`. -/
def getPayload (st : TableState) : SavePayload :=
  { updates := getChangedItems st
    creates := st.pendingCreates
    deletes := st.pendingDeletes }

/-! ## `handleAddItem` -/

/-- The type-aware field defaults of `handleAddItem`'s first loop. -/
def defaultFieldData (fields : List Field) : FieldData :=
  fields.foldl
    (fun fd f =>
      match f.schema.defaultValue with
      | some d => setField fd f.schema.slug d
      | Option.none =>
          if f.schema.type == "Switch" then setField fd f.schema.slug (JVal.bool false)
          else if f.schema.type == "Number" then setField fd f.schema.slug (JVal.num 0)
          else if f.schema.type == "MultiReference" then setField fd f.schema.slug (JVal.arr [])
          else setField fd f.schema.slug (JVal.str ""))
    []

/-- The numeric sort value read from an item:
`item.fieldData?.[sortSlug] ?? 0` coerced through
`typeof val === "number" ? val : 0`.  An integer-valued double is read
back exactly — no arithmetic happens here. -/
def sortValOf (sortSlug : String) (it : Item) : Int :=
  match lookupAssoc it.fieldData sortSlug with
  | some (JVal.num n) => n
  | _ => 0

/-- The `reduce(Math.max, 0)` computing the maximal sort value over
`[...items, ...pendingCreates]`.  `Math.max` only compares, never
rounds, so on integer-valued doubles it is integer `max` at every
magnitude; the accumulator starts at `0`, so the result is a
nonnegative integer-valued double. -/
def maxSortValue (sortSlug : String) (st : TableState) : Int :=
  (st.items ++ st.pendingCreates).foldl
    (fun m it => max m (sortValOf sortSlug it)) 0

/-- IEEE-754 double addition `m + 1` on a nonnegative integer-valued
double `m` (the only inputs the source feeds it: `maxSort` starts from
the accumulator `0`).  Every integer up to `2^53` is exactly
representable, so below `2^53` the sum is exact.  In `[2^53, 2^54)` the
representable doubles are the even integers: `m + 1` falls halfway and
round-to-nearest-even picks `m` when `m`'s mantissa `m/2` is even
(`m % 4 = 0`) and `m + 2` otherwise — in particular `2^53 + 1` rounds
back to `2^53`.  From `2^54` on the gap is at least `4`, so `m + 1`
rounds down to `m`. -/
def jsAddOne (m : Int) : Int :=
  if m < 2 ^ 53 then m + 1
  else if m < 2 ^ 54 then (if m % 4 = 0 then m else m + 2)
  else m

/-- `handleAddItem()`: synthesize the new pending item.  `tempId` stands
for the generated `temp-${Date.now()}-${random}` id; the sort value is
the double sum `maxSort + 1`. -/
def handleAddItem (cfg : TableConfig) (st : TableState) (tempId : String) : Item :=
  let fieldData := defaultFieldData cfg.fields
  let fieldData :=
    match cfg.sortField with
    | some sf =>
        if sf.schema.type == "Number" then
          setField fieldData sf.schema.slug
            (JVal.num (jsAddOne (maxSortValue sf.schema.slug st)))
        else fieldData
    | Option.none => fieldData
  { id := tempId
    fieldData := fieldData
    isDraft := cfg.draftEnabled
    isArchived := cfg.draftEnabled }

/-! ## String helpers for the server actions -/

/-- `a.isPrefixOf`-style test on character lists. -/
def charsStartWith : List Char → List Char → Bool
  | [], _ => true
  | _ :: _, [] => false
  | a :: as, b :: bs => a == b && charsStartWith as bs

/-- Substring containment on character lists (model of
`String.prototype.includes`). -/
def charsIncludes (pat : List Char) : List Char → Bool
  | [] => pat.isEmpty
  | c :: rest => charsStartWith pat (c :: rest) || charsIncludes pat rest

/-- `s.includes(pat)`. -/
def strIncludes (s pat : String) : Bool := charsIncludes pat.data s.data

mutual

/-- JS string coercion `String(v)` / `` `${v}` `` of a JSON value:
strings stay, numbers print, `null` prints `"null"`, plain objects print
`"[object Object]"`, arrays join their coerced elements with `","`
(`null` elements joining as the empty string). -/
def jvalToJsString : JVal → String
  | .str s => s
  | .num n => toString n
  | .bool b => if b then "true" else "false"
  | .null => "null"
  | .obj _ => "[object Object]"
  | .arr l => jarrToJsString l

/-- `Array.prototype.toString` on a JSON array. -/
def jarrToJsString : List JVal → String
  | [] => ""
  | [JVal.null] => ""
  | [v] => jvalToJsString v
  | JVal.null :: rest => "," ++ jarrToJsString rest
  | v :: rest => jvalToJsString v ++ "," ++ jarrToJsString rest

end

/-- JS truthiness of a possibly-absent JSON value (`undefined`, `null`,
`""`, `0` and `false` are falsy; objects and arrays are truthy). -/
def jsTruthy : Option JVal → Bool
  | Option.none => false
  | some (JVal.str s) => s != ""
  | some (JVal.num n) => n != 0
  | some (JVal.bool b) => b
  | some JVal.null => false
  | some (JVal.arr _) => true
  | some (JVal.obj _) => true

/-! ## Slug auto-generation (save-all create path) -/

/-- Membership in the regex character class `[a-z0-9]`. -/
def isSlugChar (c : Char) : Bool :=
  ('a' ≤ c && c ≤ 'z') || ('0' ≤ c && c ≤ '9')

/-- `replace(/[^a-z0-9]+/g, "-")`: every maximal run of characters
outside `[a-z0-9]` becomes a single `'-'`.  The boolean flag records
whether the previous character belonged to such a run (so the run's
remaining characters are dropped rather than re-hyphenated). -/
def collapseNonSlugRuns : Bool → List Char → List Char
  | _, [] => []
  | inRun, c :: rest =>
      if isSlugChar c then c :: collapseNonSlugRuns false rest
      else if inRun then collapseNonSlugRuns true rest
      else '-' :: collapseNonSlugRuns true rest

/-- Drop one leading `'-'` if present. -/
def trimLeadingHyphen : List Char → List Char
  | '-' :: rest => rest
  | l => l

/-- Drop one trailing `'-'` if present. -/
def trimTrailingHyphen (l : List Char) : List Char :=
  (trimLeadingHyphen l.reverse).reverse

/-- The slug derivation
`name.toLowerCase().replace(/[^a-z0-9]+/g, "-").replace(/(^-|-$)/g, "")`.
After collapsing there is at most one leading and one trailing hyphen, so
the global `(^-|-$)` replace is exactly one leading trim plus one
trailing trim.  `Char.toLower` lowers only ASCII letters; it agrees with
JS `toLowerCase` on every string whose uppercase letters are ASCII. -/
def jsSlugify (name : String) : String :=
  String.mk
    (trimTrailingHyphen (trimLeadingHyphen
      (collapseNonSlugRuns false (name.data.map Char.toLower))))

/-! ## Save-all server action: creates -/

/-- A create entry of the posted payload. -/
structure CreatePayload where
  fieldData : FieldData
  isDraft : Bool
  isArchived : Bool

/-- Webflow API calls issued by the save-all action (the parts the claims
track).  `createItem live fd isDraft` covers both `createItem` and
`createItemLive` (`live` tells which endpoint). -/
inductive SaveApiCall where
  | createItem (live : Bool) (fieldData : FieldData) (isDraft : Bool)
  | publishItem (itemId : String)
  | deleteItemLive (itemId : String)
  | deleteItem (itemId : String)
  deriving DecidableEq

/-- `fields` of the hidden-default pass:
`if (!field.visible && field.schema.defaultValue !== undefined)`. -/
def applyHiddenDefaults (cfg : TableConfig) (fd : FieldData) : FieldData :=
  cfg.fields.foldl
    (fun acc f =>
      if !f.visible then
        match f.schema.defaultValue with
        | some d => setField acc f.schema.slug d
        | Option.none => acc
      else acc)
    fd

/-- The create-path field data: spread the client field data, apply
hidden-field defaults, then auto-derive the slug when
`!fieldData.slug && fieldData.name` (JS truthiness on both).  A truthy
non-string `name` would make the source throw a `TypeError`; name fields
are strings, and the embedding leaves the data unchanged in that case. -/
def buildCreateFieldData (cfg : TableConfig) (fd0 : FieldData) : FieldData :=
  let fd := applyHiddenDefaults cfg fd0
  if !(jsTruthy (lookupAssoc fd "slug")) && jsTruthy (lookupAssoc fd "name") then
    match lookupAssoc fd "name" with
    | some (JVal.str s) => setField fd "slug" (JVal.str (jsSlugify s))
    | _ => fd
  else fd

/-- `` `${fieldData.slug}` ``: the JS template coercion of the slug field
(an absent slug prints `"undefined"`). -/
def slugTemplate (fd : FieldData) : String :=
  match lookupAssoc fd "slug" with
  | Option.none => "undefined"
  | some v => jvalToJsString v

/-- The `catch` block of the per-create `try`: when the caught message
contains `"validation_error"` or `"slug"`, retry once with
`` `${fieldData.slug}-${randomSuffix}` `` written into the payload's slug
(publishing again when the item is live); any other message, and any
failure of the retry or its publish, becomes the returned error.
`create2`/`pub2` are the scripted responses of the retry's API calls;
`callsSoFar` are the calls already issued inside the `try`. -/
def createCatch (isDraft : Bool) (fieldData : FieldData) (e : String)
    (suffix : String) (create2 : Except String String)
    (pub2 : Except String Unit) (callsSoFar : List SaveApiCall) :
    Except String Unit × List SaveApiCall :=
  if strIncludes e "validation_error" || strIncludes e "slug" then
    let retrySlug := slugTemplate fieldData ++ "-" ++ suffix
    let fieldData2 := setField fieldData "slug" (JVal.str retrySlug)
    let call2 := SaveApiCall.createItem (!isDraft) fieldData2 isDraft
    match create2 with
    | .ok newId2 =>
        if isDraft then (.ok (), callsSoFar ++ [call2])
        else
          match pub2 with
          | .ok () => (.ok (), callsSoFar ++ [call2, .publishItem newId2])
          | .error e2 => (.error e2, callsSoFar ++ [call2, .publishItem newId2])
    | .error e2 => (.error e2, callsSoFar ++ [call2])
  else (.error e, callsSoFar)

/-- One iteration of the save-all create loop.  The remote API is
scripted: `create1`/`pub1` are the responses to the first
`createItem(Live)` and `publishItem` calls, `create2`/`pub2` to the
retry's.  Returns the iteration's outcome (an error propagates to the
batch-level `catch`) and the list of API calls issued. -/
def runCreateOne (cfg : TableConfig) (item : CreatePayload)
    (create1 : Except String String) (pub1 : Except String Unit)
    (suffix : String) (create2 : Except String String)
    (pub2 : Except String Unit) :
    Except String Unit × List SaveApiCall :=
  let fieldData := buildCreateFieldData cfg item.fieldData
  let call1 := SaveApiCall.createItem (!item.isDraft) fieldData item.isDraft
  match create1 with
  | .ok newId =>
      if item.isDraft then (.ok (), [call1])
      else
        match pub1 with
        | .ok () => (.ok (), [call1, .publishItem newId])
        | .error e =>
            createCatch item.isDraft fieldData e suffix create2 pub2
              [call1, .publishItem newId]
  | .error e => createCatch item.isDraft fieldData e suffix create2 pub2 [call1]

/-- The field data of the `createItem(Live)` calls in a call trace. -/
def createCallFields (calls : List SaveApiCall) : List FieldData :=
  calls.filterMap fun c =>
    match c with
    | .createItem _ fd _ => some fd
    | _ => Option.none

/-! ## Save-all server action: deletes -/

/-- One iteration of the delete loop (error-free execution): a live
tombstone issues `deleteItemLive` first; `deleteItem` follows
unconditionally. -/
def runDeleteOne (d : DeletePayload) : List SaveApiCall :=
  (if d.wasLive then [SaveApiCall.deleteItemLive d.id] else [])
    ++ [SaveApiCall.deleteItem d.id]

/-- The whole delete loop. -/
def runDeletes (ds : List DeletePayload) : List SaveApiCall :=
  ds.flatMap runDeleteOne

/-! ## `loadReferenceData` -/

/-- `Set` insertion: JS `new Set(list)` keeps first occurrences in
insertion order. -/
def insertUnique (acc : List String) (x : String) : List String :=
  if acc.contains x then acc else acc ++ [x]

/-- `[...new Set(list)]`. -/
def jsSetDedup (l : List String) : List String :=
  l.foldl insertUnique []

/-- The distinct referenced collection ids: fields of type `Reference`
or `MultiReference` whose `validations?.collectionId` is truthy, mapped
to that id, deduplicated. -/
def referencedCollectionIds (cfg : TableConfig) : List String :=
  jsSetDedup
    (cfg.fields.filterMap fun f =>
      if f.schema.type == "Reference" || f.schema.type == "MultiReference" then
        match f.schema.validations with
        | some v =>
            match v.collectionId with
            | some cid => if cid != "" then some cid else Option.none
            | Option.none => Option.none
        | Option.none => Option.none
      else Option.none)

/-- `loadReferenceData`: fetch each distinct referenced collection
(`fetchItems` scripts `listItems` per collection id); a failed fetch
stores `[]` for that collection instead of failing the load.  The
`Promise.all` writes to distinct keys, so the fan-in is modelled as the
association list in id order. -/
def loadReferenceData (fetchItems : String → Except String (List JVal))
    (cfg : TableConfig) : List (String × List JVal) :=
  (referencedCollectionIds cfg).map fun cid =>
    (cid,
      match fetchItems cid with
      | .ok its => its
      | .error _ => [])

/-! ## Upload-file server action -/

/-- `ALLOWED_FILE_TYPES` from `types.ts`. -/
def ALLOWED_FILE_TYPES : List String :=
  ["image/png", "image/jpeg", "image/jpg", "image/gif", "image/bmp",
   "image/svg+xml", "image/webp",
   "application/pdf", "application/msword",
   "application/vnd.openxmlformats-officedocument.wordprocessingml.document",
   "application/vnd.ms-excel",
   "application/vnd.openxmlformats-officedocument.spreadsheetml.sheet",
   "application/vnd.ms-powerpoint",
   "application/vnd.openxmlformats-officedocument.presentationml.presentation",
   "text/plain", "text/csv",
   "application/vnd.oasis.opendocument.text",
   "application/vnd.oasis.opendocument.spreadsheet",
   "application/vnd.oasis.opendocument.presentation"]

/-- `ALLOWED_FILE_EXTENSIONS` from `types.ts`. -/
def ALLOWED_FILE_EXTENSIONS : List String :=
  [".png", ".jpeg", ".jpg", ".gif", ".bmp", ".svg", ".webp", ".pdf",
   ".doc", ".docx", ".xls", ".xlsx", ".ppt", ".pptx", ".txt", ".csv",
   ".odt", ".ods", ".odp"]

/-- `String.prototype.split` with a single-character separator, on
character lists (`"".split(".")` is `[""]`, `"a.".split(".")` is
`["a", ""]`). -/
def jsSplitChar (sep : Char) : List Char → List (List Char)
  | [] => [[]]
  | c :: rest =>
      match jsSplitChar sep rest with
      | [] => if c == sep then [[], []] else [[c]]
      | h :: t => if c == sep then [] :: h :: t else (c :: h) :: t

/-- The derived extension
`` originalFilename ? `.${originalFilename.split(".").pop()?.toLowerCase()}` : "" ``
(an absent/empty filename is falsy). -/
def fileExtensionOf (originalFilename : String) : String :=
  if originalFilename == "" then ""
  else
    "." ++ String.mk
      (((jsSplitChar '.' originalFilename.data).getLastD []).map Char.toLower)

/-- Outcome of `createUploadFileAction`'s handler. -/
inductive UploadFileOutcome where
  | noToken
  | noFile
  | tooLarge
  | typeNotAllowed
  | uploaded (url filename : String)
  | uploadFailed (msg : String)
  deriving DecidableEq

/-- `createUploadFileAction`'s handler: token check, file presence,
size gate, then the type check — rejected only when *neither* the MIME
type nor the extension is allowed — and finally the provider upload
(scripted by `providerResult`, yielding url and filename on success). -/
def uploadFileAction (hasToken : Bool) (hasFile : Bool)
    (size maxSizeBytes : Int) (mimeType : String)
    (originalFilename : String)
    (providerResult : Except String (String × String)) : UploadFileOutcome :=
  if !hasToken then .noToken
  else if !hasFile then .noFile
  else if size > maxSizeBytes then .tooLarge
  else
    let fileExtension := fileExtensionOf originalFilename
    let isValidMime := ALLOWED_FILE_TYPES.contains mimeType
    let isValidExtension := ALLOWED_FILE_EXTENSIONS.contains fileExtension
    if !isValidMime && !isValidExtension then .typeNotAllowed
    else
      match providerResult with
      | .ok (url, fname) => .uploaded url fname
      | .error e => .uploadFailed e

deriving instance DecidableEq for Except

/-! ## Helper lemmas -/

/-- In a list of items with pairwise-distinct ids, the find-by-id of a
member returns that member itself. -/
theorem find_self_of_nodup_ids (l : List Item)
    (h : (l.map Item.id).Nodup) :
    ∀ it ∈ l, l.find? (fun o => o.id == it.id) = some it := by
  induction l with
  | nil => intro it hit; cases hit
  | cons a t ih =>
      intro it hit
      rw [List.map_cons, List.nodup_cons] at h
      rcases List.mem_cons.mp hit with rfl | hmem
      · exact List.find?_cons_of_pos _ (by simp)
      · have ha : a.id ≠ it.id := by
          intro he
          exact h.1 (he ▸ List.mem_map_of_mem Item.id hmem)
        rw [List.find?_cons_of_neg _ (by simpa using ha)]
        exact ih h.2 it hmem

/-- No member of an id-distinct list differs from itself as baseline. -/
theorem any_itemDiffers_self (l : List Item)
    (h : (l.map Item.id).Nodup) : l.any (itemDiffers l) = false := by
  rw [List.any_eq_false]
  intro it hit
  rw [itemDiffers, find_self_of_nodup_ids l h it hit]
  simp

/-! ## C1: `hasChanges` after `handleSaveComplete` / `handleCancel` -/

/-- C1 (counterexample): the claim quantifies over *every* table state,
but when two items share an id the find-by-id baseline lookup of
`hasChanges` pairs the second item with the first item's baseline, so
`hasChanges()` is `true` immediately after `handleSaveComplete()`. -/
theorem hasChanges_after_saveComplete_duplicate_ids :
    hasChanges (handleSaveComplete
      { items := [⟨"a", [("x", JVal.str "1")], false, false⟩,
                  ⟨"a", [("x", JVal.str "2")], false, false⟩]
        originalItems := []
        pendingCreates := []
        pendingDeletes := []
        pendingFileUploads := []
        tempFiles := [] }) = true := by decide

/-- C1 (amended): for every table state whose `items` have pairwise
distinct ids (resp. whose `originalItems` do, for the cancel case),
`hasChanges()` is false immediately after `handleSaveComplete()` — which
re-baselines `originalItems` to a clone of `items` and clears
`pendingCreates`, `pendingDeletes` and `pendingFileUploads` — and
immediately after `handleCancel()` — which restores `items` from a clone
of `originalItems` and clears all pending state. -/
theorem hasChanges_false_after_save_or_cancel (st : TableState)
    (hsave : (st.items.map Item.id).Nodup)
    (hcancel : (st.originalItems.map Item.id).Nodup) :
    hasChanges (handleSaveComplete st) = false ∧
    hasChanges (handleCancel st) = false := by
  constructor
  · simp [hasChanges, handleSaveComplete, any_itemDiffers_self _ hsave]
  · simp [hasChanges, handleCancel, any_itemDiffers_self _ hcancel]

/-- C1 witness: the amended theorem applied to a concrete state. -/
theorem hasChanges_false_after_save_or_cancel_witness :
    (([⟨"a", [("x", JVal.str "1")], false, false⟩].map Item.id).Nodup ∧
     (([] : List Item).map Item.id).Nodup) ∧
    (hasChanges (handleSaveComplete
        ⟨[⟨"a", [("x", JVal.str "1")], false, false⟩], [], [], [], [], []⟩) = false ∧
     hasChanges (handleCancel
        ⟨[⟨"a", [("x", JVal.str "1")], false, false⟩], [], [], [], [], []⟩) = false) :=
  ⟨⟨by decide, by decide⟩,
   hasChanges_false_after_save_or_cancel
     ⟨[⟨"a", [("x", JVal.str "1")], false, false⟩], [], [], [], [], []⟩
     (by decide) (by decide)⟩

/-! ## C3: empty-string fields do not count as changes -/

/-- C3: an item whose only difference from its baseline is an
empty-string field — a field holding `""` on one side and absent, or
also `""`, on the other, all other fields (`pre`/`post`) and the draft
flag equal — is not a change: `hasChanges()` is false, because diffing
compares field data after `normalizeFieldData` removes empty-string
values. -/
theorem hasChanges_ignores_empty_string_field (i o : Item)
    (pre post : FieldData) (k : String)
    (hid : i.id = o.id) (hdraft : i.isDraft = o.isDraft)
    (hfd : (i.fieldData = pre ++ (k, JVal.str "") :: post ∧
              o.fieldData = pre ++ post) ∨
           (i.fieldData = pre ++ post ∧
              o.fieldData = pre ++ (k, JVal.str "") :: post) ∨
           (i.fieldData = pre ++ (k, JVal.str "") :: post ∧
              o.fieldData = pre ++ (k, JVal.str "") :: post)) :
    hasChanges ⟨[i], [o], [], [], [], []⟩ = false := by
  have hnorm : normalizeFieldData i.fieldData = normalizeFieldData o.fieldData := by
    rcases hfd with ⟨h1, h2⟩ | ⟨h1, h2⟩ | ⟨h1, h2⟩ <;>
      rw [h1, h2] <;> simp [normalizeFieldData, List.filter_append]
  have hfind : [o].find? (fun x => x.id == i.id) = some o :=
    List.find?_cons_of_pos _ (by simp [hid])
  simp [hasChanges, orderString, itemDiffers, hfind, hnorm, hid, hdraft]

/-- C3 witness: a concrete item/baseline pair differing only in an
empty-string field. -/
theorem hasChanges_ignores_empty_string_field_witness :
    ((⟨"a", [("t", JVal.str "x"), ("e", JVal.str "")], false, false⟩ : Item).id
        = (⟨"a", [("t", JVal.str "x")], false, false⟩ : Item).id) ∧
    hasChanges ⟨[⟨"a", [("t", JVal.str "x"), ("e", JVal.str "")], false, false⟩],
                [⟨"a", [("t", JVal.str "x")], false, false⟩],
                [], [], [], []⟩ = false :=
  ⟨rfl,
   hasChanges_ignores_empty_string_field
     ⟨"a", [("t", JVal.str "x"), ("e", JVal.str "")], false, false⟩
     ⟨"a", [("t", JVal.str "x")], false, false⟩
     [("t", JVal.str "x")] [] "e" rfl rfl (Or.inl ⟨rfl, rfl⟩)⟩

/-! ## C9: items without a baseline are flagged but never saved -/

/-- C9: an item of `items` whose id appears in no element of
`originalItems` makes `hasChanges()` true (its baseline lookup fails),
yet `getPayload().updates` excludes it: `getChangedItems` filters out
items without a baseline original, so the item is flagged as a change but
never included in the save payload's updates. -/
theorem phantom_item_flagged_but_never_updated (st : TableState) (it : Item)
    (hmem : it ∈ st.items)
    (hno : ∀ o ∈ st.originalItems, o.id ≠ it.id) :
    hasChanges st = true ∧
    ∀ u ∈ (getPayload st).updates, u.item.id ≠ it.id := by
  have hfind : st.originalItems.find? (fun o => o.id == it.id) = none := by
    rw [List.find?_eq_none]
    intro o ho
    simpa using hno o ho
  constructor
  · have hdiff : itemDiffers st.originalItems it = true := by
      rw [itemDiffers, hfind]
    have hany : st.items.any (itemDiffers st.originalItems) = true :=
      List.any_eq_true.mpr ⟨it, hmem, hdiff⟩
    simp [hasChanges, hany]
  · intro u hu
    have hu' : u ∈ getChangedItems st := hu
    rw [getChangedItems, List.mem_map] at hu'
    rcases hu' with ⟨it2, hit2, hfu⟩
    have hcb := (List.mem_filter.mp hit2).2
    have hitem : u.item = it2 := by
      rw [← hfu]
      cases h : st.originalItems.find? (fun o => o.id == it2.id) <;> simp [h]
    intro heq
    rw [hitem] at heq
    rw [changedWithBaseline] at hcb
    simp only [heq, hfind] at hcb
    exact Bool.false_ne_true hcb

/-- C9 witness: a single item with no matching baseline. -/
theorem phantom_item_flagged_but_never_updated_witness :
    ((⟨"ghost", [], false, false⟩ : Item) ∈
        [(⟨"ghost", [], false, false⟩ : Item)] ∧
      ∀ o ∈ [(⟨"b", [], false, false⟩ : Item)], o.id ≠ "ghost") ∧
    (hasChanges ⟨[⟨"ghost", [], false, false⟩], [⟨"b", [], false, false⟩],
        [], [], [], []⟩ = true ∧
      ∀ u ∈ (getPayload ⟨[⟨"ghost", [], false, false⟩],
          [⟨"b", [], false, false⟩], [], [], [], []⟩).updates,
        u.item.id ≠ "ghost") :=
  ⟨⟨by decide, by decide⟩,
   phantom_item_flagged_but_never_updated
     ⟨[⟨"ghost", [], false, false⟩], [⟨"b", [], false, false⟩], [], [], [], []⟩
     ⟨"ghost", [], false, false⟩ (by decide) (by decide)⟩

/-! ## C6: `handleAddItem` sort value -/

/-- The `Math.max` fold never drops below its initial accumulator. -/
theorem init_le_foldl_max (slug : String) (l : List Item) :
    ∀ init : Int,
      init ≤ l.foldl (fun m i => max m (sortValOf slug i)) init := by
  induction l with
  | nil => intro init; exact le_refl _
  | cons a t ih =>
      intro init
      rw [List.foldl_cons]
      exact le_trans (le_max_left _ _) (ih _)

/-- Every member's sort value is bounded by the `Math.max` fold. -/
theorem sortVal_le_foldl_max (slug : String) (l : List Item) :
    ∀ (init : Int) (it : Item), it ∈ l →
      sortValOf slug it ≤ l.foldl (fun m i => max m (sortValOf slug i)) init := by
  induction l with
  | nil => intro init it h; cases h
  | cons a t ih =>
      intro init it h
      rw [List.foldl_cons]
      rcases List.mem_cons.mp h with rfl | hm
      · exact le_trans (le_max_right _ _) (init_le_foldl_max slug t _)
      · exact ih _ it hm

/-- Writing a key into a JS object makes that key's lookup return the
written value. -/
theorem lookupAssoc_setField (fd : FieldData) (k : String) (v : JVal) :
    lookupAssoc (setField fd k v) k = some v := by
  rw [setField]
  by_cases h : fd.any (fun kv => kv.1 == k) = true
  · rw [if_pos h]
    induction fd with
    | nil => cases h
    | cons a t ih =>
        rw [List.map_cons]
        by_cases hk : (a.1 == k) = true
        · rw [if_pos hk]
          simp [lookupAssoc]
        · rw [if_neg hk]
          rw [List.any_cons] at h
          have hk' : (a.1 == k) = false := Bool.not_eq_true _ ▸ by simpa using hk
          rw [hk'] at h
          simp only [Bool.false_or] at h
          rw [lookupAssoc, List.find?_cons_of_neg _ (by simpa using hk)]
          exact ih h
  · rw [if_neg h]
    have hnone : fd.find? (fun kv => kv.1 == k) = none := by
      rw [List.find?_eq_none]
      intro kv hkv hp
      exact h (List.any_eq_true.mpr ⟨kv, hkv, hp⟩)
    rw [lookupAssoc, List.find?_append, hnone, Option.none_or]
    simp

/-- The `Math.max` fold stays below a bound that dominates its initial
accumulator and every member's sort value. -/
theorem foldl_max_le_bound (slug : String) (l : List Item) (bound : Int) :
    ∀ init : Int, init ≤ bound →
      (∀ it ∈ l, sortValOf slug it ≤ bound) →
      l.foldl (fun m i => max m (sortValOf slug i)) init ≤ bound := by
  induction l with
  | nil => intro init h _; simpa using h
  | cons a t ih =>
      intro init hinit hall
      rw [List.foldl_cons]
      exact ih _ (max_le hinit (hall a (List.mem_cons_self a t)))
        (fun it hit => hall it (List.mem_cons_of_mem a hit))

/-- C6 (counterexample): with an existing sort value of `2^53` — a
plain integer, so the claim's "existing sort values are numbers"
precondition holds — the source computes `maxSort + 1` in IEEE doubles,
where `2^53 + 1 === 2^53`: `handleAddItem()` stores a sort value equal
to the existing maximum, not strictly greater than it. -/
theorem addItem_sort_value_saturates_at_two_pow_53 :
    maxSortValue "order"
        ⟨[⟨"a", [("order", JVal.num (2 ^ 53))], false, false⟩],
         [], [], [], [], []⟩ = 2 ^ 53 ∧
    lookupAssoc (handleAddItem
        ⟨"s", "c", true, false,
          some ⟨true, true, false,
            ⟨"Order", "order", "Number", Option.none, Option.none⟩⟩, []⟩
        ⟨[⟨"a", [("order", JVal.num (2 ^ 53))], false, false⟩],
         [], [], [], [], []⟩
        "temp-1").fieldData "order"
      = some (JVal.num (2 ^ 53)) := by decide

/-- C6 (amended): on a configuration whose sort field has type
`Number`, `handleAddItem()` stores the double sum `maxSort + 1` in the
new item's sort field; provided every existing sort value (across items
and pending creates) is a number in the IEEE-754 safe-integer range
(at most `2^53 - 1`), that sum is exact and strictly greater than every
existing sort value.  (At `2^53` the double increment rounds back to
`2^53` and strictness fails, as the counterexample shows.) -/
theorem addItem_sort_value_exceeds_max (cfg : TableConfig) (st : TableState)
    (sf : Field) (tempId : String)
    (hsf : cfg.sortField = some sf) (hty : sf.schema.type = "Number")
    (hnum : ∀ it ∈ st.items ++ st.pendingCreates,
      ∃ n : Int, lookupAssoc it.fieldData sf.schema.slug = some (JVal.num n) ∧
        n ≤ 2 ^ 53 - 1) :
    lookupAssoc (handleAddItem cfg st tempId).fieldData sf.schema.slug
        = some (JVal.num (maxSortValue sf.schema.slug st + 1)) ∧
    ∀ it ∈ st.items ++ st.pendingCreates, ∀ n : Int,
      lookupAssoc it.fieldData sf.schema.slug = some (JVal.num n) →
      n < maxSortValue sf.schema.slug st + 1 := by
  have hmax : maxSortValue sf.schema.slug st ≤ 2 ^ 53 - 1 := by
    rw [maxSortValue]
    refine foldl_max_le_bound _ _ _ 0 (by norm_num) ?_
    intro it hit
    obtain ⟨n, hl, hb⟩ := hnum it hit
    rw [sortValOf, hl]
    exact hb
  have hadd : jsAddOne (maxSortValue sf.schema.slug st)
      = maxSortValue sf.schema.slug st + 1 := by
    rw [jsAddOne, if_pos (by omega)]
  constructor
  · rw [handleAddItem, hsf]
    simp only [hty, beq_self_eq_true, if_true]
    rw [hadd]
    exact lookupAssoc_setField _ _ _
  · intro it hit n hn
    have hval : sortValOf sf.schema.slug it = n := by
      rw [sortValOf, hn]
    have hle : sortValOf sf.schema.slug it ≤ maxSortValue sf.schema.slug st :=
      sortVal_le_foldl_max _ _ _ it hit
    omega

/-- C6 witness: one existing item with (safe-range) sort value 7; the
new item gets 8. -/
theorem addItem_sort_value_exceeds_max_witness :
    ((⟨"s", "c", true, false,
        some ⟨true, true, false, ⟨"Order", "order", "Number", Option.none, Option.none⟩⟩,
        []⟩ : TableConfig).sortField
      = some ⟨true, true, false, ⟨"Order", "order", "Number", Option.none, Option.none⟩⟩ ∧
      (7 : Int) ≤ 2 ^ 53 - 1) ∧
    lookupAssoc (handleAddItem
        ⟨"s", "c", true, false,
          some ⟨true, true, false, ⟨"Order", "order", "Number", Option.none, Option.none⟩⟩, []⟩
        ⟨[⟨"a", [("order", JVal.num 7)], false, false⟩], [], [], [], [], []⟩
        "temp-1").fieldData "order"
      = some (JVal.num (maxSortValue "order"
          ⟨[⟨"a", [("order", JVal.num 7)], false, false⟩], [], [], [], [], []⟩ + 1)) :=
  ⟨⟨rfl, by norm_num⟩,
   (addItem_sort_value_exceeds_max
     ⟨"s", "c", true, false,
       some ⟨true, true, false, ⟨"Order", "order", "Number", Option.none, Option.none⟩⟩, []⟩
     ⟨[⟨"a", [("order", JVal.num 7)], false, false⟩], [], [], [], [], []⟩
     ⟨true, true, false, ⟨"Order", "order", "Number", Option.none, Option.none⟩⟩
     "temp-1" rfl rfl
     (by intro it hit; simp at hit; subst hit; exact ⟨7, rfl, by norm_num⟩)).1⟩

/-! ## C7: required-empty short-circuits the other checks -/

/-- C7: for a visible, editable, required field whose value is empty
(`undefined`, `null`, `""`, or an empty array), the field's validation
pass produces exactly the one "is required" error — the `continue`
skips the maxLength/minLength/minimum/maximum checks for that field —
while the other fields of the item and the other items contribute their
errors independently (`validateItem` is the concatenation over fields,
`validateItems` the concatenation over `[...items, ...pendingCreates]`). -/
theorem required_empty_short_circuits (cfg : TableConfig) (it : Item)
    (f : Field) (pre post : List Field)
    (hfields : cfg.fields = pre ++ f :: post)
    (hv : f.visible = true) (he : f.editable = true) (hr : f.required = true)
    (hempty : isEmptyValue (lookupAssoc it.fieldData f.schema.slug) = true) :
    fieldErrors it f
        = [⟨it.id, f.schema.name, f.schema.name ++ " is required"⟩] ∧
    validateItem cfg it
        = pre.flatMap (fieldErrors it)
            ++ [⟨it.id, f.schema.name, f.schema.name ++ " is required"⟩]
            ++ post.flatMap (fieldErrors it) ∧
    ∀ st : TableState,
      validateItems cfg st
          = (st.items ++ st.pendingCreates).flatMap (validateItem cfg) := by
  have h1 : fieldErrors it f
      = [⟨it.id, f.schema.name, f.schema.name ++ " is required"⟩] := by
    rw [fieldErrors]
    simp [hv, he, hr, hempty]
  refine ⟨h1, ?_, fun st => rfl⟩
  rw [validateItem, hfields, List.flatMap_append, List.flatMap_cons, h1]
  simp

/-- C7 witness: a required, visible, editable plain-text field left
empty on a pending item. -/
theorem required_empty_short_circuits_witness :
    (([] : List Field) ++
        (⟨true, true, true, ⟨"Name", "name", "PlainText",
            some ⟨some 10, Option.none, Option.none, Option.none, Option.none⟩,
            Option.none⟩⟩ : Field) :: []
      = [⟨true, true, true, ⟨"Name", "name", "PlainText",
            some ⟨some 10, Option.none, Option.none, Option.none, Option.none⟩,
            Option.none⟩⟩]) ∧
    fieldErrors ⟨"t1", [("name", JVal.str "")], true, true⟩
        ⟨true, true, true, ⟨"Name", "name", "PlainText",
            some ⟨some 10, Option.none, Option.none, Option.none, Option.none⟩,
            Option.none⟩⟩
      = [⟨"t1", "Name", "Name is required"⟩] :=
  ⟨rfl,
   (required_empty_short_circuits
     ⟨"s", "c", true, true, Option.none,
       [⟨true, true, true, ⟨"Name", "name", "PlainText",
           some ⟨some 10, Option.none, Option.none, Option.none, Option.none⟩,
           Option.none⟩⟩]⟩
     ⟨"t1", [("name", JVal.str "")], true, true⟩
     ⟨true, true, true, ⟨"Name", "name", "PlainText",
         some ⟨some 10, Option.none, Option.none, Option.none, Option.none⟩,
         Option.none⟩⟩
     [] [] rfl rfl rfl rfl (by decide)).1⟩

/-! ## C4: slug auto-generation -/

/-- C4: the create path's slug derivation maps `"Café Münster!"` to
`"caf-m-nster"` — lowercase, maximal runs of characters outside
`[a-z0-9]` (including the non-ASCII letters `é`, `ü`) collapsed to a
single hyphen, leading/trailing hyphens trimmed — and the derivation
applies only when the client supplied no (truthy) slug: with a truthy
slug present, `buildCreateFieldData` leaves the field data exactly as
the hidden-default pass produced it. -/
theorem slug_autogeneration (cfg : TableConfig) (fd : FieldData)
    (hslug : jsTruthy (lookupAssoc (applyHiddenDefaults cfg fd) "slug") = true) :
    jsSlugify "Café Münster!" = "caf-m-nster" ∧
    buildCreateFieldData cfg fd = applyHiddenDefaults cfg fd := by
  constructor
  · decide
  · rw [buildCreateFieldData]
    simp [hslug]

/-- C4 witness: a payload that already carries a slug. -/
theorem slug_autogeneration_witness :
    (jsTruthy (lookupAssoc (applyHiddenDefaults
        ⟨"s", "c", true, true, Option.none, []⟩
        [("slug", JVal.str "keep-me"), ("name", JVal.str "Name")]) "slug") = true) ∧
    buildCreateFieldData ⟨"s", "c", true, true, Option.none, []⟩
        [("slug", JVal.str "keep-me"), ("name", JVal.str "Name")]
      = applyHiddenDefaults ⟨"s", "c", true, true, Option.none, []⟩
          [("slug", JVal.str "keep-me"), ("name", JVal.str "Name")] :=
  ⟨by decide,
   (slug_autogeneration ⟨"s", "c", true, true, Option.none, []⟩
     [("slug", JVal.str "keep-me"), ("name", JVal.str "Name")] (by decide)).2⟩

/-! ## C2: slug-collision retry -/

/-- C2: in the save-all create loop, when the first API call fails with
a message containing `"validation_error"` or `"slug"`, exactly one retry
create call is issued, with `` `${fieldData.slug}-${randomSuffix}` ``
(the 4-character suffix lengthens the slug by 5 including the hyphen)
written into the payload's slug; a failure message containing neither
marker propagates with no retry; and a failure of the retry itself
propagates as the loop's error (still only two create calls). -/
theorem create_slug_collision_retry (cfg : TableConfig) (item : CreatePayload)
    (e suffix : String) (pub1 : Except String Unit)
    (create2 : Except String String) (pub2 : Except String Unit)
    (hsuf : suffix.length = 4) :
    ((strIncludes e "validation_error" || strIncludes e "slug") = true →
       createCallFields
           (runCreateOne cfg item (.error e) pub1 suffix create2 pub2).2
         = [buildCreateFieldData cfg item.fieldData,
            setField (buildCreateFieldData cfg item.fieldData) "slug"
              (JVal.str (slugTemplate (buildCreateFieldData cfg item.fieldData)
                ++ "-" ++ suffix))] ∧
       (slugTemplate (buildCreateFieldData cfg item.fieldData)
           ++ "-" ++ suffix).length
         = (slugTemplate (buildCreateFieldData cfg item.fieldData)).length + 5) ∧
    ((strIncludes e "validation_error" || strIncludes e "slug") = false →
       runCreateOne cfg item (.error e) pub1 suffix create2 pub2
         = (.error e, [SaveApiCall.createItem (!item.isDraft)
              (buildCreateFieldData cfg item.fieldData) item.isDraft])) ∧
    (∀ e2 : String,
       (strIncludes e "validation_error" || strIncludes e "slug") = true →
       create2 = .error e2 →
       (runCreateOne cfg item (.error e) pub1 suffix create2 pub2).1
         = .error e2) := by
  refine ⟨fun hc => ⟨?_, ?_⟩, fun hc => ?_, fun e2 hc hc2 => ?_⟩
  · rw [runCreateOne]
    simp only [createCatch, hc, if_true]
    cases create2 with
    | ok id2 =>
        cases hd : item.isDraft <;> cases pub2 <;>
          simp [createCallFields, hd]
    | error e2 => simp [createCallFields]
  · simp [String.length_append, hsuf]
    decide
  · rw [runCreateOne]
    simp [createCatch, hc]
  · subst hc2
    rw [runCreateOne]
    simp [createCatch, hc]

/-- C2 witness: a draft create whose name-derived slug collides; the
retry call carries the suffixed slug. -/
theorem create_slug_collision_retry_witness :
    ("ab12".length = 4 ∧
      (strIncludes "validation_error: duplicate slug" "validation_error"
        || strIncludes "validation_error: duplicate slug" "slug") = true) ∧
    createCallFields (runCreateOne ⟨"s", "c", true, true, Option.none, []⟩
        ⟨[("name", JVal.str "My Post")], true, false⟩
        (.error "validation_error: duplicate slug") (.ok ()) "ab12"
        (.ok "id2") (.ok ())).2
      = [[("name", JVal.str "My Post"), ("slug", JVal.str "my-post")],
         [("name", JVal.str "My Post"), ("slug", JVal.str "my-post-ab12")]] :=
  ⟨⟨by decide, by decide⟩,
   by
     have h := ((create_slug_collision_retry
        ⟨"s", "c", true, true, Option.none, []⟩
        ⟨[("name", JVal.str "My Post")], true, false⟩
        "validation_error: duplicate slug" "ab12" (.ok ()) (.ok "id2") (.ok ())
        (by decide)).1 (by decide)).1
     rw [h]
     decide⟩

/-! ## C5: delete tombstone call order -/

/-- C5: for every tombstone `{id, wasLive}` of the delete loop, a
`deleteItemLive` call is issued first exactly when `wasLive` is true,
and a `deleteItem` (draft-delete) call is always issued afterwards —
it is the unconditional last call of the iteration; the loop processes
tombstones in order. -/
theorem delete_tombstone_call_order (d : DeletePayload) :
    (d.wasLive = true →
       runDeleteOne d
         = [SaveApiCall.deleteItemLive d.id, SaveApiCall.deleteItem d.id]) ∧
    (d.wasLive = false →
       runDeleteOne d = [SaveApiCall.deleteItem d.id]) ∧
    (runDeleteOne d).getLast? = some (SaveApiCall.deleteItem d.id) ∧
    ∀ ds : List DeletePayload, runDeletes ds = ds.flatMap runDeleteOne := by
  refine ⟨fun h => by simp [runDeleteOne, h],
          fun h => by simp [runDeleteOne, h], ?_, fun ds => rfl⟩
  cases h : d.wasLive <;> simp [runDeleteOne, h]

/-- C5 witness: a live tombstone issues live-delete then draft-delete. -/
theorem delete_tombstone_call_order_witness :
    runDeleteOne ⟨"item9", true⟩
        = [SaveApiCall.deleteItemLive "item9", SaveApiCall.deleteItem "item9"] ∧
    (runDeleteOne ⟨"item9", true⟩).getLast?
        = some (SaveApiCall.deleteItem "item9") :=
  ⟨(delete_tombstone_call_order ⟨"item9", true⟩).1 rfl,
   (delete_tombstone_call_order ⟨"item9", true⟩).2.2.1⟩

/-! ## C8: `loadReferenceData` error isolation -/

/-- Looking up a key of a key-indexed map always yields that key's
image (the first entry with the key carries it). -/
theorem lookupAssoc_map_pair {α : Type} (g : String → α) :
    ∀ (l : List String) (k : String), k ∈ l →
      lookupAssoc (l.map fun x => (x, g x)) k = some (g k) := by
  intro l
  induction l with
  | nil => intro k h; cases h
  | cons x t ih =>
      intro k h
      by_cases hx : (x == k) = true
      · have hxk : x = k := by simpa using hx
        subst hxk
        simp [lookupAssoc]
      · rw [List.map_cons, lookupAssoc,
          List.find?_cons_of_neg _ (by simpa using hx)]
        have hk : k ∈ t := by
          rcases List.mem_cons.mp h with rfl | hm
          · simp at hx
          · exact hm
        simpa [lookupAssoc] using ih k hk

/-- C8: `loadReferenceData` produces one entry per distinct referenced
collection id (`Reference`/`MultiReference` fields with a truthy
`validations.collectionId`), and for each such id the stored list is the
fetched items on success and `[]` on a fetch error — the function's
result type is total, so a single failed reference fetch never fails the
whole load. -/
theorem loadReferenceData_error_isolation
    (fetchItems : String → Except String (List JVal)) (cfg : TableConfig)
    (cid : String) (hmem : cid ∈ referencedCollectionIds cfg) :
    (loadReferenceData fetchItems cfg).map Prod.fst
        = referencedCollectionIds cfg ∧
    lookupAssoc (loadReferenceData fetchItems cfg) cid
        = some (match fetchItems cid with
                | .ok its => its
                | .error _ => []) := by
  constructor
  · rw [loadReferenceData]
    simp [Function.comp_def]
  · rw [loadReferenceData]
    exact lookupAssoc_map_pair _ _ _ hmem

/-- C8 witness: one `Reference` field pointing at `"col1"` whose fetch
fails; the load still returns `[]` for that collection. -/
theorem loadReferenceData_error_isolation_witness :
    ("col1" ∈ referencedCollectionIds
        ⟨"s", "c", true, true, Option.none,
          [⟨true, true, false,
            ⟨"Ref", "ref", "Reference",
              some ⟨Option.none, Option.none, Option.none, Option.none, some "col1"⟩,
              Option.none⟩⟩]⟩) ∧
    lookupAssoc (loadReferenceData
        (fun _ => .error "network down")
        ⟨"s", "c", true, true, Option.none,
          [⟨true, true, false,
            ⟨"Ref", "ref", "Reference",
              some ⟨Option.none, Option.none, Option.none, Option.none, some "col1"⟩,
              Option.none⟩⟩]⟩) "col1"
      = some [] :=
  ⟨by decide,
   (loadReferenceData_error_isolation (fun _ => .error "network down")
     ⟨"s", "c", true, true, Option.none,
       [⟨true, true, false,
         ⟨"Ref", "ref", "Reference",
           some ⟨Option.none, Option.none, Option.none, Option.none, some "col1"⟩,
           Option.none⟩⟩]⟩ "col1" (by decide)).2⟩

/-! ## C10: upload-file type check -/

/-- C10: once the token/file/size gates pass, the upload action returns
the 400 "File type not allowed" rejection exactly when the MIME type is
not in `ALLOWED_FILE_TYPES` *and* the derived extension is not in
`ALLOWED_FILE_EXTENSIONS`; with at least one of the two allowed — e.g. a
disallowed MIME type but an allowed extension — the file passes the type
check and is uploaded (given the provider succeeds). -/
theorem uploadFile_type_check (size maxSizeBytes : Int) (mime fname : String)
    (res : Except String (String × String)) (hsize : size ≤ maxSizeBytes) :
    (uploadFileAction true true size maxSizeBytes mime fname res
        = .typeNotAllowed
      ↔ ALLOWED_FILE_TYPES.contains mime = false ∧
        ALLOWED_FILE_EXTENSIONS.contains (fileExtensionOf fname) = false) ∧
    (∀ url f2, res = .ok (url, f2) →
       (ALLOWED_FILE_TYPES.contains mime = true ∨
        ALLOWED_FILE_EXTENSIONS.contains (fileExtensionOf fname) = true) →
       uploadFileAction true true size maxSizeBytes mime fname res
         = .uploaded url f2) := by
  have h1 : uploadFileAction true true size maxSizeBytes mime fname res
      = (if (!ALLOWED_FILE_TYPES.contains mime
              && !ALLOWED_FILE_EXTENSIONS.contains (fileExtensionOf fname))
          then .typeNotAllowed
          else match res with
            | .ok (u, f) => .uploaded u f
            | .error e => .uploadFailed e) := by
    unfold uploadFileAction
    simp [not_lt.mpr hsize]
  constructor
  · rw [h1]
    cases hm : ALLOWED_FILE_TYPES.contains mime <;>
      cases hext : ALLOWED_FILE_EXTENSIONS.contains (fileExtensionOf fname) <;>
        simp [hm, hext] <;>
          (cases res with
           | ok p => cases p; simp
           | error e => simp)
  · intro url f2 hres hvalid
    have hcond : (!ALLOWED_FILE_TYPES.contains mime
        && !ALLOWED_FILE_EXTENSIONS.contains (fileExtensionOf fname)) = false := by
      rcases hvalid with hv | hv <;> rw [hv] <;> simp
    rw [h1, hres, hcond]
    simp

/-- C10 witness: a disallowed MIME type with an allowed `.pdf`
extension is uploaded, not rejected. -/
theorem uploadFile_type_check_witness :
    ((5 : Int) ≤ 10 ∧
      ALLOWED_FILE_EXTENSIONS.contains (fileExtensionOf "report.PDF") = true) ∧
    uploadFileAction true true 5 10 "application/x-evil" "report.PDF"
        (.ok ("https://cdn/x", "f1")) = .uploaded "https://cdn/x" "f1" :=
  ⟨⟨by decide, by decide⟩,
   (uploadFile_type_check 5 10 "application/x-evil" "report.PDF"
     (.ok ("https://cdn/x", "f1")) (by decide)).2 "https://cdn/x" "f1" rfl
     (Or.inr (by decide))⟩

end SvelteWebflowCms
